import Mathlib

/-!
Verification development for the instant-messaging client's connection and
offline-delivery subsystem.  The definitions below are a shallow embedding of
the TypeScript source:

* `src/hooks/useOfflineQueue.ts` — the offline outbox (queue, drain, persistence)
* `src/hooks/useConnection.ts`   — the connection monitor (backoff, reconnect, probe)
* `src/hooks/useMessages.ts`     — the message-delivery coordinator (`sendMessage`, drain callback)
* `src/hooks/useTyping.ts`       — the typing-status filter
* `src/lib/instant.ts`           — the remote-store helpers (`dbHelpers.messages.send`)

Machine integers are embedded as `Nat`/`Int` (JavaScript timestamps as epoch
milliseconds in `Int`), promises as explicit success/failure outcomes, and the
React state as explicit state records threaded through the functions.
-/

namespace IM

/-! ## Offline queue data model (`useOfflineQueue.ts`, interface `QueuedMessage`) -/

/-- A queued outgoing message, as held by the offline outbox.
`timestamp` is epoch milliseconds. -/
structure QueuedMessage where
  id : String
  content : String
  senderId : String
  senderAlias : String
  timestamp : Int
  retryCount : Nat
deriving DecidableEq, Repr

/-- Constant `MAX_RETRY_COUNT` from `useOfflineQueue.ts`. -/
def MAX_RETRY_COUNT : Nat := 3

/-- Operation `addToQueue`: appends the message with `retryCount` initialised to 0. -/
def addToQueue (queue : List QueuedMessage) (m : QueuedMessage) : List QueuedMessage :=
  queue ++ [{ m with retryCount := 0 }]

/-- Operation `removeFromQueue`: drops the message with the given id. -/
def removeFromQueue (queue : List QueuedMessage) (messageId : String) : List QueuedMessage :=
  queue.filter (fun msg => msg.id != messageId)

/-- The body of the `for (const message of messagesToProcess)` loop of
`processQueue`.  The first argument is the snapshot still to be processed, the
second the live queue (updated through `setQueueState` in the source), the
third the `failedMessages` accumulator.  Returns the live queue, the
accumulated failed messages and the list of messages passed to `sendFunction`,
in call order.  `sendOk m = true` embeds `await sendFunction(m)` resolving,
`false` embeds it rejecting. -/
def drainLoop (sendOk : QueuedMessage → Bool) :
    List QueuedMessage → List QueuedMessage → List QueuedMessage →
    List QueuedMessage × List QueuedMessage × List QueuedMessage
  | [], queue, fails => (queue, fails, [])
  | m :: rest, queue, fails =>
    if sendOk m then
      -- success: remove the sent message from the live queue
      let r := drainLoop sendOk rest (queue.filter (fun msg => msg.id != m.id)) fails
      (r.1, r.2.1, m :: r.2.2)
    else if m.retryCount + 1 < MAX_RETRY_COUNT then
      -- failure under the cap: keep the message, with incremented retry count
      let r := drainLoop sendOk rest queue (fails ++ [{ m with retryCount := m.retryCount + 1 }])
      (r.1, r.2.1, m :: r.2.2)
    else
      -- failure reaching the cap: remove from the live queue
      let r := drainLoop sendOk rest (queue.filter (fun msg => msg.id != m.id)) fails
      (r.1, r.2.1, m :: r.2.2)

/-- The post-loop update of `processQueue`: if any messages failed but stayed
under the retry cap, replace each queued message by its updated copy. -/
def applyFails (queue fails : List QueuedMessage) : List QueuedMessage :=
  if fails.isEmpty then queue
  else queue.map (fun msg => ((fails.find? (fun f => f.id == msg.id)).getD msg))

/-- Operation `processQueue(sendFunction)`.  Here `processing` embeds `processingRef.current`
at entry.  Returns the queue after the drain together with the list of
messages passed to `sendFunction`, in call order. -/
def processQueue (sendOk : QueuedMessage → Bool) (processing : Bool)
    (queue : List QueuedMessage) : List QueuedMessage × List QueuedMessage :=
  if processing || queue.isEmpty then (queue, [])
  else
    let messagesToProcess := queue
    let r := drainLoop sendOk messagesToProcess queue []
    (applyFails r.1 r.2.1, r.2.2)

/-- A drain during which one message is appended to the live queue after `k`
snapshot elements have been processed (an `addToQueue` interleaved with the
`await` points of the loop).  The snapshot is the queue at entry, so the added
message is not part of it. -/
def processQueueWithAddition (sendOk : QueuedMessage → Bool)
    (queue : List QueuedMessage) (k : Nat) (newMsg : QueuedMessage) :
    List QueuedMessage × List QueuedMessage :=
  let messagesToProcess := queue
  let r₁ := drainLoop sendOk (messagesToProcess.take k) queue []
  let r₂ := drainLoop sendOk (messagesToProcess.drop k) (r₁.1 ++ [newMsg]) r₁.2.1
  (applyFails r₂.1 r₂.2.1, r₁.2.2 ++ r₂.2.2)

/-! ## Decomposition lemmas for the drain loop -/

/-- Whether one loop iteration removes `m` from the live queue: success, or a
failure whose incremented retry count reaches the cap. -/
def removes (sendOk : QueuedMessage → Bool) (m : QueuedMessage) : Bool :=
  sendOk m || !(decide (m.retryCount + 1 < MAX_RETRY_COUNT))

/-- The retry-count increment applied to a failed message. -/
def bump (m : QueuedMessage) : QueuedMessage := { m with retryCount := m.retryCount + 1 }

/-- Whether a failed message stays queued (failure strictly under the cap). -/
def keptFail (sendOk : QueuedMessage → Bool) (m : QueuedMessage) : Bool :=
  !sendOk m && decide (m.retryCount + 1 < MAX_RETRY_COUNT)

/-- The failure update kept for a message that failed under the cap. -/
def failUpd (sendOk : QueuedMessage → Bool) (m : QueuedMessage) : Option QueuedMessage :=
  if keptFail sendOk m then some (bump m) else none

/-- Survival of a live-queue entry `x` under all removals triggered by the
snapshot `S`. -/
def keepPred (sendOk : QueuedMessage → Bool) (S : List QueuedMessage)
    (x : QueuedMessage) : Bool :=
  S.all (fun m => !removes sendOk m || x.id != m.id)

theorem drainLoop_attempts (sendOk : QueuedMessage → Bool) (S Q F : List QueuedMessage) :
    (drainLoop sendOk S Q F).2.2 = S := by
  induction S generalizing Q F with
  | nil => rfl
  | cons m rest ih =>
    by_cases h : sendOk m
    · simp [drainLoop, h, ih]
    · by_cases h2 : m.retryCount + 1 < MAX_RETRY_COUNT <;> simp [drainLoop, h, h2, ih]

theorem drainLoop_queue (sendOk : QueuedMessage → Bool) (S Q F : List QueuedMessage) :
    (drainLoop sendOk S Q F).1 = Q.filter (keepPred sendOk S) := by
  induction S generalizing Q F with
  | nil =>
    have h : keepPred sendOk [] = fun _ => true := by
      funext x; simp [keepPred]
    simp [drainLoop, h]
  | cons m rest ih =>
    by_cases h : sendOk m
    · simp only [drainLoop, if_pos h]
      rw [ih, List.filter_filter]
      apply List.filter_congr
      intro x _
      simp [keepPred, removes, h, Bool.and_comm]
    · by_cases h2 : m.retryCount + 1 < MAX_RETRY_COUNT
      · simp only [drainLoop, if_neg h, if_pos h2]
        rw [ih]
        apply List.filter_congr
        intro x _
        simp [keepPred, removes, h, h2]
      · simp only [drainLoop, if_neg h, if_neg h2]
        rw [ih, List.filter_filter]
        apply List.filter_congr
        intro x _
        simp [keepPred, removes, h, h2, Bool.and_comm]

theorem drainLoop_fails (sendOk : QueuedMessage → Bool) (S Q F : List QueuedMessage) :
    (drainLoop sendOk S Q F).2.1 = F ++ S.filterMap (failUpd sendOk) := by
  induction S generalizing Q F with
  | nil => simp [drainLoop]
  | cons m rest ih =>
    by_cases h : sendOk m
    · simp [drainLoop, h, ih, failUpd, keptFail]
    · by_cases h2 : m.retryCount + 1 < MAX_RETRY_COUNT
      · simp [drainLoop, h, h2, ih, failUpd, keptFail, bump]
      · simp [drainLoop, h, h2, ih, failUpd, keptFail]

/-! ## Characterisation of one full drain on a queue with distinct ids -/

theorem keepPred_of_nodup (sendOk : QueuedMessage → Bool) {Q : List QueuedMessage}
    {x : QueuedMessage} (hx : x ∈ Q) (hnd : (Q.map (fun m => m.id)).Nodup) :
    keepPred sendOk Q x = !removes sendOk x := by
  induction Q with
  | nil => cases hx
  | cons y ys ih =>
    simp only [List.map_cons, List.nodup_cons] at hnd
    rcases List.mem_cons.mp hx with rfl | hx'
    · have hall : ys.all (fun m => !removes sendOk m || x.id != m.id) = true := by
        apply List.all_eq_true.mpr
        intro m hm
        have : x.id ≠ m.id := fun e => hnd.1 (e ▸ List.mem_map_of_mem (fun q => q.id) hm)
        simp [bne_iff_ne, this]
      simp [keepPred, List.all_cons, hall]
    · have hne : x.id ≠ y.id := by
        intro e
        exact hnd.1 (e ▸ List.mem_map_of_mem (fun q => q.id) hx')
      have hy : (!removes sendOk y || x.id != y.id) = true := by
        simp [bne_iff_ne, hne]
      simp only [keepPred, List.all_cons, hy, Bool.true_and]
      exact ih hx' hnd.2

theorem filterMap_failUpd (sendOk : QueuedMessage → Bool) (Q : List QueuedMessage) :
    Q.filterMap (failUpd sendOk) = (Q.filter (keptFail sendOk)).map bump := by
  induction Q with
  | nil => rfl
  | cons m rest ih =>
    by_cases h : keptFail sendOk m <;>
      simp [List.filterMap_cons, List.filter_cons, failUpd, h, ih]

theorem bump_id (m : QueuedMessage) : (bump m).id = m.id := rfl

theorem find?_map_bump {msgs : List QueuedMessage} {msg : QueuedMessage}
    (hmem : msg ∈ msgs) (hnd : (msgs.map (fun m => m.id)).Nodup) :
    (msgs.map bump).find? (fun f => f.id == msg.id) = some (bump msg) := by
  induction msgs with
  | nil => cases hmem
  | cons y ys ih =>
    simp only [List.map_cons, List.nodup_cons] at hnd
    rcases List.mem_cons.mp hmem with rfl | hmem'
    · simp [List.find?_cons, bump_id]
    · have hne : y.id ≠ msg.id := by
        intro e
        exact hnd.1 (e ▸ List.mem_map_of_mem (fun q => q.id) hmem')
      have : ((bump y).id == msg.id) = false := by
        simp [bump_id, hne]
      simp only [List.map_cons, List.find?_cons, this]
      exact ih hmem' hnd.2

theorem filter_nodup_ids {Q : List QueuedMessage} (p : QueuedMessage → Bool)
    (hnd : (Q.map (fun m => m.id)).Nodup) :
    ((Q.filter p).map (fun m => m.id)).Nodup :=
  List.Nodup.sublist ((List.filter_sublist Q).map (fun m => m.id)) hnd

/-- One complete `processQueue` call (not reentrant, no interleaved additions)
on a queue whose ids are pairwise distinct: every snapshotted message is
attempted exactly once in order, successes and cap-reaching failures are
removed, and failures under the cap stay in place with their retry count
incremented. -/
theorem processQueue_eq (sendOk : QueuedMessage → Bool) (Q : List QueuedMessage)
    (hnd : (Q.map (fun m => m.id)).Nodup) :
    processQueue sendOk false Q =
      ((Q.filter (keptFail sendOk)).map bump, Q) := by
  by_cases hQ : Q.isEmpty
  · rw [List.isEmpty_iff] at hQ
    subst hQ
    rfl
  · unfold processQueue
    rw [Bool.false_or, if_neg (by simp [hQ])]
    simp only [drainLoop_attempts, drainLoop_queue, drainLoop_fails,
      List.nil_append, filterMap_failUpd]
    have hkept : Q.filter (keepPred sendOk Q) = Q.filter (keptFail sendOk) := by
      apply List.filter_congr
      intro x hx
      rw [keepPred_of_nodup sendOk hx hnd]
      simp [removes, keptFail]
    rw [hkept]
    refine Prod.ext ?_ rfl
    show applyFails (Q.filter (keptFail sendOk)) ((Q.filter (keptFail sendOk)).map bump) =
      (Q.filter (keptFail sendOk)).map bump
    set K := Q.filter (keptFail sendOk) with hK
    by_cases hKempty : K = []
    · simp [applyFails, hKempty]
    · unfold applyFails
      rw [if_neg (by simp [hKempty])]
      apply List.map_congr_left
      intro msg hmsg
      rw [find?_map_bump hmsg (hK ▸ filter_nodup_ids (keptFail sendOk) hnd)]
      rfl

theorem failUpd_pointwise (sendOk : QueuedMessage → Bool) :
    (fun m => if sendOk m then none
        else if m.retryCount + 1 < MAX_RETRY_COUNT then some (bump m) else none) =
      failUpd sendOk := by
  funext m
  by_cases h : sendOk m
  · simp [failUpd, keptFail, h]
  · by_cases h2 : m.retryCount + 1 < MAX_RETRY_COUNT <;> simp [failUpd, keptFail, h, h2]

theorem processQueue_attempts (sendOk : QueuedMessage → Bool) (Q : List QueuedMessage) :
    (processQueue sendOk false Q).2 = Q := by
  by_cases hQ : Q.isEmpty
  · rw [List.isEmpty_iff] at hQ
    subst hQ
    rfl
  · unfold processQueue
    rw [Bool.false_or, if_neg (by simp [hQ])]
    simp [drainLoop_attempts]

theorem failUpd_ids {sendOk : QueuedMessage → Bool} {S : List QueuedMessage}
    {f : QueuedMessage} (hf : f ∈ S.filterMap (failUpd sendOk)) :
    f.id ∈ S.map (fun m => m.id) := by
  rw [filterMap_failUpd] at hf
  obtain ⟨x, hx, rfl⟩ := List.mem_map.mp hf
  rw [bump_id]
  exact List.mem_map_of_mem _ (List.mem_of_mem_filter hx)

/-- Sample queued message used by the concrete witnesses. -/
def sampleMsg (i c : String) : QueuedMessage :=
  { id := i, content := c, senderId := "u1", senderAlias := "alice",
    timestamp := 0, retryCount := 0 }

/-- Claim C2: a single (non-reentrant) drain attempts every snapshotted message
exactly once in order; a success is removed from the queue; a failure has its
retry count incremented and is kept while the new count is `< 3`, removed when
it reaches `3`.  In particular an always-rejecting single message is attempted
exactly three times over successive drains (retryCount 0→1→2→3) before
removal, an always-succeeding message is attempted once and removed, and for a
two-message queue whose first message alone fails, one drain leaves the first
message queued with `retryCount = 1` and removes the second. -/
theorem claim2_drain_retry_semantics :
    (∀ (sendOk : QueuedMessage → Bool) (Q : List QueuedMessage),
        (Q.map (fun m => m.id)).Nodup →
        processQueue sendOk false Q =
          (Q.filterMap (fun m =>
              if sendOk m then none
              else if m.retryCount + 1 < MAX_RETRY_COUNT then some (bump m) else none),
           Q))
    ∧ (∀ m : QueuedMessage, m.retryCount = 0 →
        (processQueue (fun _ => false) false [m] = ([bump m], [m]) ∧
         processQueue (fun _ => false) false [bump m] = ([bump (bump m)], [bump m]) ∧
         processQueue (fun _ => false) false [bump (bump m)] = ([], [bump (bump m)]) ∧
         (bump m).retryCount = 1 ∧ (bump (bump m)).retryCount = 2 ∧
         [m].length + [bump m].length + [bump (bump m)].length = 3))
    ∧ (∀ m : QueuedMessage, processQueue (fun _ => true) false [m] = ([], [m]))
    ∧ (∀ m₁ m₂ : QueuedMessage, m₁.retryCount = 0 → m₁.id ≠ m₂.id →
        processQueue (fun x => x.id != m₁.id) false [m₁, m₂] = ([bump m₁], [m₁, m₂])) := by
  have general : ∀ (sendOk : QueuedMessage → Bool) (Q : List QueuedMessage),
      (Q.map (fun m => m.id)).Nodup →
      processQueue sendOk false Q =
        (Q.filterMap (fun m =>
            if sendOk m then none
            else if m.retryCount + 1 < MAX_RETRY_COUNT then some (bump m) else none),
         Q) := by
    intro sendOk Q hnd
    rw [failUpd_pointwise, filterMap_failUpd]
    exact processQueue_eq sendOk Q hnd
  refine ⟨general, ?_, ?_, ?_⟩
  · intro m h0
    have h1 := general (fun _ => false) [m] (by simp)
    have h2 := general (fun _ => false) [bump m] (by simp)
    have h3 := general (fun _ => false) [bump (bump m)] (by simp)
    refine ⟨?_, ?_, ?_, ?_, ?_, rfl⟩
    · rw [h1]; simp [MAX_RETRY_COUNT, bump, h0]
    · rw [h2]; simp [MAX_RETRY_COUNT, bump, h0]
    · rw [h3]; simp [MAX_RETRY_COUNT, bump, h0]
    · simp [bump, h0]
    · simp [bump, h0]
  · intro m
    rw [general (fun _ => true) [m] (by simp)]
    simp
  · intro m₁ m₂ h0 hne
    rw [general _ [m₁, m₂] (by simp [hne])]
    simp [MAX_RETRY_COUNT, bump, h0, hne, Ne.symm hne, bne_iff_ne]

theorem claim2_witness :
    (processQueue (fun _ => true) false [sampleMsg "a" "hi"]
        = ([], [sampleMsg "a" "hi"])) ∧
    (processQueue (fun x => x.id != "a") false [sampleMsg "a" "hi", sampleMsg "b" "yo"]
        = ([bump (sampleMsg "a" "hi")], [sampleMsg "a" "hi", sampleMsg "b" "yo"])) ∧
    (processQueue (fun _ => false) false [sampleMsg "a" "hi"]
        = ([bump (sampleMsg "a" "hi")], [sampleMsg "a" "hi"])) := by
  refine ⟨claim2_drain_retry_semantics.2.2.1 _, ?_, ?_⟩
  · have h := claim2_drain_retry_semantics.2.2.2 (sampleMsg "a" "hi") (sampleMsg "b" "yo")
      rfl (by decide)
    simpa using h
  · exact (claim2_drain_retry_semantics.2.1 (sampleMsg "a" "hi") rfl).1

/-- Claim C7: a drain that starts while another drain is in progress, or on an
empty queue, is a no-op: the queue is unchanged and `sendFn` is never called.
Across an overlapping pair of drain calls, the total number of `sendFn` calls
equals the number of queued messages, not double. -/
theorem claim7_drain_reentrancy_noop :
    (∀ (sendOk : QueuedMessage → Bool) (Q : List QueuedMessage),
        processQueue sendOk true Q = (Q, []))
    ∧ (∀ (sendOk : QueuedMessage → Bool) (processing : Bool),
        processQueue sendOk processing ([] : List QueuedMessage) = ([], []))
    ∧ (∀ (sendOk sendOk' : QueuedMessage → Bool) (Q Q' : List QueuedMessage),
        (processQueue sendOk false Q).2.length +
          (processQueue sendOk' true Q').2.length = Q.length) := by
  refine ⟨fun sendOk Q => by simp [processQueue], fun sendOk p => by simp [processQueue], ?_⟩
  intro sendOk sendOk' Q Q'
  have h1 : (processQueue sendOk false Q).2 = Q := processQueue_attempts sendOk Q
  have h2 : processQueue sendOk' true Q' = (Q', []) := by simp [processQueue]
  rw [h1, h2]
  simp

/-- Claim C10: a drain iterates over the snapshot taken when it starts; a
message added to the queue after the drain begins (here: after `k` snapshot
elements have been processed, with an id distinct from every snapshotted id)
is never passed to `sendFn` by that drain and is still in the queue, with its
retry count unchanged, when the drain completes. -/
theorem claim10_drain_snapshot_frame (sendOk : QueuedMessage → Bool)
    (Q : List QueuedMessage) (k : Nat) (newMsg : QueuedMessage)
    (hfresh : newMsg.id ∉ Q.map (fun m => m.id)) :
    newMsg ∈ (processQueueWithAddition sendOk Q k newMsg).1 ∧
    (processQueueWithAddition sendOk Q k newMsg).2 = Q ∧
    newMsg ∉ (processQueueWithAddition sendOk Q k newMsg).2 := by
  have hattempts : (processQueueWithAddition sendOk Q k newMsg).2 = Q := by
    unfold processQueueWithAddition
    simp [drainLoop_attempts]
  have hnotmem : newMsg ∉ Q := fun hm => hfresh (List.mem_map_of_mem _ hm)
  refine ⟨?_, hattempts, by rw [hattempts]; exact hnotmem⟩
  unfold processQueueWithAddition
  simp only [drainLoop_queue, drainLoop_fails, List.nil_append]
  set Q₁ := (Q.filter (keepPred sendOk (Q.take k))) with hQ₁
  set F₂ := (Q.take k).filterMap (failUpd sendOk) ++ (Q.drop k).filterMap (failUpd sendOk)
    with hF₂
  have hsurvive : keepPred sendOk (Q.drop k) newMsg = true := by
    apply List.all_eq_true.mpr
    intro m hm
    have hmQ : m ∈ Q := List.mem_of_mem_drop hm
    have : newMsg.id ≠ m.id := fun e => hfresh (e ▸ List.mem_map_of_mem (fun q => q.id) hmQ)
    simp [bne_iff_ne, this]
  have hmem₂ : newMsg ∈ (Q₁ ++ [newMsg]).filter (keepPred sendOk (Q.drop k)) :=
    List.mem_filter.mpr ⟨List.mem_append_right _ (List.mem_singleton.mpr rfl), hsurvive⟩
  have hfind : F₂.find? (fun f => f.id == newMsg.id) = none := by
    apply List.find?_eq_none.mpr
    intro f hf
    have hfid : f.id ∈ Q.map (fun m => m.id) := by
      rcases List.mem_append.mp hf with hf' | hf'
      · have := failUpd_ids hf'
        rw [List.map_take] at this
        exact List.mem_of_mem_take this
      · have := failUpd_ids hf'
        rw [List.map_drop] at this
        exact List.mem_of_mem_drop this
    simp only [beq_iff_eq]
    intro e
    exact hfresh (e ▸ hfid)
  unfold applyFails
  by_cases hF : F₂.isEmpty
  · rw [if_pos hF]
    exact hmem₂
  · rw [if_neg hF]
    have hmapped := List.mem_map_of_mem
      (fun msg => ((F₂.find? (fun f => f.id == msg.id)).getD msg)) hmem₂
    simpa [hfind] using hmapped

theorem claim10_witness :
    (sampleMsg "c" "new") ∈
      (processQueueWithAddition (fun _ => true) [sampleMsg "a" "hi"] 0 (sampleMsg "c" "new")).1 ∧
    (processQueueWithAddition (fun _ => true) [sampleMsg "a" "hi"] 0 (sampleMsg "c" "new")).2
      = [sampleMsg "a" "hi"] ∧
    (sampleMsg "c" "new") ∉
      (processQueueWithAddition (fun _ => true) [sampleMsg "a" "hi"] 0 (sampleMsg "c" "new")).2 :=
  claim10_drain_snapshot_frame (fun _ => true) [sampleMsg "a" "hi"] 0 (sampleMsg "c" "new")
    (by decide)

/-! ## Connection monitor (`useConnection.ts`) -/

/-- Type `ConnectionStatus` from `useConnection.ts`. -/
inductive ConnStatus where
  | connected
  | disconnected
  | connecting
  | error
deriving DecidableEq, Repr

/-- Record `ConnectionState` from `useConnection.ts`; `lastConnected` is epoch
milliseconds. -/
structure ConnectionState where
  status : ConnStatus
  isReconnecting : Bool
  lastConnected : Option Int
  error : Option String
  retryCount : Nat
deriving DecidableEq, Repr

/-- The hook's full mutable context: the React state, the `retryCountRef`
ref, and the pending `reconnectTimeoutRef` timer, represented by the delay of
the `checkStatus` call it would fire (`none` when no timer is scheduled). -/
structure ConnModel where
  state : ConnectionState
  retryRef : Nat
  pending : Option Nat
deriving DecidableEq, Repr

/-- Constant `maxRetries` from `useConnection.ts`. -/
def maxRetries : Nat := 10

/-- Constant `baseDelay` from `useConnection.ts` (1 second). -/
def baseDelay : Nat := 1000

/-- Function `getRetryDelay`: capped exponential backoff (cap 30 seconds). -/
def getRetryDelay (retryCount : Nat) : Nat :=
  min (baseDelay * 2 ^ retryCount) 30000

/-- Outcome of the one-shot probe query `db.queryOnce(...)`. -/
inductive ProbeResult where
  | ok
  | fail (msg : String)
deriving DecidableEq, Repr

/-- Operation `checkConnectionStatus`: probes the remote store.  On success, if the
status is not already `connected`, the state becomes connected with the retry
counter reset; on failure the error is captured into state.  The source wraps
the probe in try/catch, so the function is total: every probe outcome maps to
a state (the embedding of "must not throw"). -/
def checkConnectionStatus (probe : ProbeResult) (now : Int) (m : ConnModel) : ConnModel :=
  match probe with
  | .ok =>
    if m.state.status ≠ ConnStatus.connected then
      { m with
        state := { m.state with
          status := ConnStatus.connected
          isReconnecting := false
          lastConnected := some now
          error := none
          retryCount := 0 }
        retryRef := 0 }
    else m
  | .fail msg =>
    { m with state := { m.state with status := ConnStatus.error, error := some msg } }

/-- Operation `reconnect`: clears any pending timer; at the retry cap it reports a
terminal error and schedules nothing; under the cap it enters `connecting`,
schedules `checkStatus` after the backoff delay computed from the
pre-increment counter, then increments the counter. -/
def reconnect (m : ConnModel) : ConnModel :=
  let m₁ := { m with pending := none }
  if m₁.retryRef ≥ maxRetries then
    { m₁ with
      state := { m₁.state with
        status := ConnStatus.error
        isReconnecting := false
        error := some "Max reconnection attempts reached" } }
  else
    let m₂ := { m₁ with
      state := { m₁.state with
        status := ConnStatus.connecting
        isReconnecting := true
        retryCount := m₁.retryRef } }
    let delay := getRetryDelay m₂.retryRef
    { m₂ with retryRef := m₂.retryRef + 1, pending := some delay }

/-- Initial hook state: `status: 'connecting'`, counter and refs zeroed. -/
def initConn : ConnModel :=
  { state := { status := ConnStatus.connecting, isReconnecting := false,
               lastConnected := none, error := none, retryCount := 0 },
    retryRef := 0, pending := none }

/-- One reconnect round with a forced probe failure: `reconnect` runs, and if
it scheduled a `checkStatus`, the timer fires and the probe rejects. -/
def failedCycle (m : ConnModel) : ConnModel :=
  let m' := reconnect m
  match m'.pending with
  | some _ => checkConnectionStatus (ProbeResult.fail "Connection failed") 0 { m' with pending := none }
  | none => m'

/-- Claim C3: the reconnection backoff delay is
`delay(n) = min(1000 * 2^n, 30000)` milliseconds, with `delay(0)=1000`,
`delay(4)=16000`, `delay(5)=30000` and `delay(10)=30000`. -/
theorem claim3_backoff_delay :
    (∀ n : Nat, getRetryDelay n = min (1000 * 2 ^ n) 30000) ∧
    getRetryDelay 0 = 1000 ∧ getRetryDelay 4 = 16000 ∧
    getRetryDelay 5 = 30000 ∧ getRetryDelay 10 = 30000 :=
  ⟨fun _ => rfl, by decide, by decide, by decide, by decide⟩

/-- Claim C4: `reconnect()` at a counter `≥ 10` sets a terminal error, clears
`isReconnecting` and schedules no probe; under the cap it enters `connecting`,
schedules the probe after `delay(retryCount)` computed from the pre-increment
counter, then increments the counter.  After 10 reconnect rounds with forced
probe failure, the 11th `reconnect` call reports the terminal error and
schedules no 12th attempt, and the counter never exceeds 10. -/
theorem claim4_reconnect_cap :
    (∀ m : ConnModel, maxRetries ≤ m.retryRef →
        (reconnect m).state.status = ConnStatus.error ∧
        (reconnect m).state.isReconnecting = false ∧
        (reconnect m).state.error = some "Max reconnection attempts reached" ∧
        (reconnect m).pending = none ∧
        (reconnect m).retryRef = m.retryRef)
    ∧ (∀ m : ConnModel, m.retryRef < maxRetries →
        (reconnect m).state.status = ConnStatus.connecting ∧
        (reconnect m).state.isReconnecting = true ∧
        (reconnect m).pending = some (getRetryDelay m.retryRef) ∧
        (reconnect m).retryRef = m.retryRef + 1)
    ∧ ((failedCycle^[10] initConn).retryRef = 10 ∧
        (reconnect (failedCycle^[10] initConn)).state.status = ConnStatus.error ∧
        (reconnect (failedCycle^[10] initConn)).state.error =
          some "Max reconnection attempts reached" ∧
        (reconnect (failedCycle^[10] initConn)).pending = none)
    ∧ (∀ m : ConnModel, m.retryRef ≤ maxRetries → (reconnect m).retryRef ≤ maxRetries)
    ∧ (∀ (p : ProbeResult) (now : Int) (m : ConnModel),
        (checkConnectionStatus p now m).retryRef ≤ m.retryRef) := by
  refine ⟨?_, ?_, ?_, ?_, ?_⟩
  · intro m h
    simp [reconnect, h]
  · intro m h
    have h' : ¬ maxRetries ≤ m.retryRef := Nat.not_le.mpr h
    simp [reconnect, h']
  · refine ⟨by decide, by decide, by decide, by decide⟩
  · intro m h
    by_cases hc : maxRetries ≤ m.retryRef
    · simp [reconnect, hc, h]
    · have := Nat.lt_of_not_le hc
      simp [reconnect, hc]
      omega
  · intro p now m
    cases p with
    | ok =>
      by_cases h : m.state.status = ConnStatus.connected <;>
        simp [checkConnectionStatus, h]
    | fail msg => simp [checkConnectionStatus]

theorem claim4_witness :
    (maxRetries ≤ (10 : Nat) ∧
      (reconnect { initConn with retryRef := 10 }).state.status = ConnStatus.error ∧
      (reconnect { initConn with retryRef := 10 }).pending = none) ∧
    ((3 : Nat) < maxRetries ∧
      (reconnect { initConn with retryRef := 3 }).pending = some (getRetryDelay 3) ∧
      (reconnect { initConn with retryRef := 3 }).retryRef = 4) := by
  have h₁ := claim4_reconnect_cap.1 { initConn with retryRef := 10 } (by decide)
  have h₂ := claim4_reconnect_cap.2.1 { initConn with retryRef := 3 } (by decide)
  exact ⟨⟨by decide, h₁.1, h₁.2.2.2.1⟩, ⟨by decide, h₂.2.2.1, h₂.2.2.2⟩⟩

/-- A reachable state: connected, with `lastConnected` recorded at time 0. -/
def connectedAt0 : ConnModel :=
  { state := { status := ConnStatus.connected, isReconnecting := false,
               lastConnected := some 0, error := none, retryCount := 0 },
    retryRef := 0, pending := none }

/-- Claim C5 as stated is false: a successful probe while the status is
already `connected` leaves `lastConnected` at its old value, not the current
time (the source only updates state when `connectionState.status !==
'connected'`).  Here the probe at time 1000 succeeds but `lastConnected`
stays `some 0`. -/
theorem claim5_counterexample :
    checkConnectionStatus ProbeResult.ok 1000 connectedAt0 = connectedAt0 ∧
    ¬ (checkConnectionStatus ProbeResult.ok 1000 connectedAt0).state.lastConnected
        = some 1000 := by
  constructor
  · decide
  · decide

/-- Claim C5 (amended): if the probe succeeds and the status was not already
`connected`, the state becomes `connected` with `retryCount = 0`,
`lastConnected = now` and the error cleared; a successful probe while already
connected leaves the state unchanged; if the probe throws, the status becomes
`error` and the error holds the failure message.  `checkConnectionStatus` is a
total function of the probe outcome — the embedding of "never throws". -/
theorem claim5_checkStatus (now : Int) (m : ConnModel) :
    (m.state.status ≠ ConnStatus.connected →
        (checkConnectionStatus ProbeResult.ok now m).state.status = ConnStatus.connected ∧
        (checkConnectionStatus ProbeResult.ok now m).state.retryCount = 0 ∧
        (checkConnectionStatus ProbeResult.ok now m).retryRef = 0 ∧
        (checkConnectionStatus ProbeResult.ok now m).state.lastConnected = some now ∧
        (checkConnectionStatus ProbeResult.ok now m).state.error = none ∧
        (checkConnectionStatus ProbeResult.ok now m).state.isReconnecting = false)
    ∧ (m.state.status = ConnStatus.connected →
        checkConnectionStatus ProbeResult.ok now m = m)
    ∧ (∀ msg : String,
        (checkConnectionStatus (ProbeResult.fail msg) now m).state.status = ConnStatus.error ∧
        (checkConnectionStatus (ProbeResult.fail msg) now m).state.error = some msg) := by
  refine ⟨?_, ?_, ?_⟩
  · intro h
    simp [checkConnectionStatus, h]
  · intro h
    simp [checkConnectionStatus, h]
  · intro msg
    simp [checkConnectionStatus]

theorem claim5_witness :
    (initConn.state.status ≠ ConnStatus.connected ∧
      (checkConnectionStatus ProbeResult.ok 42 initConn).state.lastConnected = some 42 ∧
      (checkConnectionStatus ProbeResult.ok 42 initConn).state.retryCount = 0) ∧
    (connectedAt0.state.status = ConnStatus.connected ∧
      checkConnectionStatus ProbeResult.ok 42 connectedAt0 = connectedAt0) ∧
    (checkConnectionStatus (ProbeResult.fail "boom") 42 initConn).state.error = some "boom" := by
  have h₁ := (claim5_checkStatus 42 initConn).1 (by decide)
  have h₂ := (claim5_checkStatus 42 connectedAt0).2.1 (by decide)
  have h₃ := (claim5_checkStatus 42 initConn).2.2 "boom"
  exact ⟨⟨by decide, h₁.2.2.2.1, h₁.2.1⟩, ⟨by decide, h₂⟩, h₃.2⟩

/-! ## Message delivery coordinator (`useMessages.ts`) -/

/-- Record `User` from `src/types/index.ts` (presence fields omitted; only the
identity pair reaches `sendMessage`).  The source field `alias` is a reserved
word here and is embedded as `userAlias`. -/
structure User where
  id : String
  userAlias : String
deriving DecidableEq, Repr

/-- JavaScript `String.prototype.trim`: strip whitespace from both ends
(embedded structurally so it evaluates). -/
def jsTrim (s : String) : String :=
  String.mk ((((s.data.dropWhile Char.isWhitespace).reverse).dropWhile
    Char.isWhitespace).reverse)

/-- The observable effect of one `sendMessage` call: the messages it added to
the offline queue (`addToQueue` calls), whether a direct remote send was
attempted, and the error string surfaced through `setError`, if any. -/
structure SendEffect where
  queued : List QueuedMessage
  remoteAttempted : Bool
  errorMsg : Option String
deriving DecidableEq, Repr

/-- Operation `sendMessage(content)` from `useMessages.ts` (lines 58-92): `freshId`
embeds `dbHelpers.generateId()`, `now` embeds `new Date()`, `directSendOk`
embeds whether `dbHelpers.messages.send` resolves.  The JavaScript guard
`!content.trim()` is the emptiness test on the trimmed content. -/
def sendMessage (currentUser : Option User) (connectionStatus : ConnStatus)
    (directSendOk : Bool) (content freshId : String) (now : Int) : SendEffect :=
  match currentUser with
  | none => { queued := [], remoteAttempted := false, errorMsg := none }
  | some u =>
    if jsTrim content = "" then { queued := [], remoteAttempted := false, errorMsg := none }
    else
      let messageData : QueuedMessage :=
        { id := freshId, content := jsTrim content, senderId := u.id,
          senderAlias := u.userAlias, timestamp := now, retryCount := 0 }
      if connectionStatus ≠ ConnStatus.connected then
        { queued := addToQueue [] messageData, remoteAttempted := false, errorMsg := none }
      else if directSendOk then
        { queued := [], remoteAttempted := true, errorMsg := none }
      else
        { queued := addToQueue [] messageData, remoteAttempted := true,
          errorMsg := some "Message queued for retry when connection is restored." }

/-- Claim C6: empty or whitespace-only content makes `sendMessage` a no-op
that surfaces no error; with non-blank content and a connection status other
than `connected`, the message is enqueued with `retryCount = 0` and no direct
remote send is attempted; with non-blank content while connected, a direct
send whose attempt fails enqueues the message instead of losing it. -/
theorem claim6_sendMessage_offline_fallback (u : User) (conn : ConnStatus)
    (directSendOk : Bool) (content freshId : String) (now : Int) :
    (jsTrim content = "" →
        sendMessage (some u) conn directSendOk content freshId now =
          { queued := [], remoteAttempted := false, errorMsg := none })
    ∧ (jsTrim content ≠ "" → conn ≠ ConnStatus.connected →
        sendMessage (some u) conn directSendOk content freshId now =
          { queued := [{ id := freshId, content := jsTrim content, senderId := u.id,
                         senderAlias := u.userAlias, timestamp := now, retryCount := 0 }],
            remoteAttempted := false, errorMsg := none })
    ∧ (jsTrim content ≠ "" →
        (sendMessage (some u) ConnStatus.connected false content freshId now).queued =
          [{ id := freshId, content := jsTrim content, senderId := u.id,
             senderAlias := u.userAlias, timestamp := now, retryCount := 0 }] ∧
        (sendMessage (some u) ConnStatus.connected false content freshId now).remoteAttempted
          = true) := by
  refine ⟨?_, ?_, ?_⟩
  · intro h
    simp [sendMessage, h]
  · intro h hconn
    simp [sendMessage, h, hconn, addToQueue]
  · intro h
    constructor <;> simp [sendMessage, h, addToQueue]

theorem claim6_witness :
    (jsTrim "  " = "" ∧
      sendMessage (some { id := "u1", userAlias := "alice" }) ConnStatus.connected true
          "  " "m1" 0 =
        { queued := [], remoteAttempted := false, errorMsg := none }) ∧
    (jsTrim "hi" ≠ "" ∧ ConnStatus.disconnected ≠ ConnStatus.connected ∧
      sendMessage (some { id := "u1", userAlias := "alice" }) ConnStatus.disconnected true
          "hi" "m2" 0 =
        { queued := [{ id := "m2", content := "hi", senderId := "u1",
                       senderAlias := "alice", timestamp := 0, retryCount := 0 }],
          remoteAttempted := false, errorMsg := none }) ∧
    ((sendMessage (some { id := "u1", userAlias := "alice" }) ConnStatus.connected false
        "hi" "m3" 0).queued =
      [{ id := "m3", content := "hi", senderId := "u1",
         senderAlias := "alice", timestamp := 0, retryCount := 0 }]) := by
  have h₁ := (claim6_sendMessage_offline_fallback { id := "u1", userAlias := "alice" }
    ConnStatus.connected true "  " "m1" 0).1 (by decide)
  have h₂ := (claim6_sendMessage_offline_fallback { id := "u1", userAlias := "alice" }
    ConnStatus.disconnected true "hi" "m2" 0).2.1 (by decide) (by decide)
  have h₃ := (claim6_sendMessage_offline_fallback { id := "u1", userAlias := "alice" }
    ConnStatus.connected false "hi" "m3" 0).2.2 (by decide)
  exact ⟨⟨by decide, h₁⟩, ⟨by decide, by decide, by simpa using h₂⟩, by simpa using h₃.1⟩

/-! ## Typing indicator (`useTyping.ts`) -/

/-- Record `TypingStatus` from `src/types/index.ts`; `lastTypingTime` is epoch
milliseconds. -/
structure TypingStatus where
  userId : String
  userAlias : String
  isTyping : Bool
  lastTypingTime : Int
deriving DecidableEq, Repr

/-- Constant `TYPING_TIMEOUT` from `src/types/index.ts` (3 seconds). -/
def TYPING_TIMEOUT : Int := 3000

/-- The filter applied to the live `typingStatus` feed in `useTyping.ts`
(lines 31-45): drop the current user's own record, records not marked
typing, and records whose `lastTypingTime` is not within the timeout of
`now`. -/
def activeTypingUsers (currentUser : Option User) (now : Int)
    (feed : List TypingStatus) : List TypingStatus :=
  feed.filter (fun status =>
    (match currentUser with
     | some u => status.userId != u.id
     | none => true)
    && status.isTyping
    && decide (now - status.lastTypingTime < TYPING_TIMEOUT))

/-- Claim C9: the computed currently-typing list holds exactly the feed
records that are not the local user's, have `isTyping = true`, and have
`lastTypingTime` within 3000 ms of the current time; a record 4000 ms in the
past is excluded even when still marked typing. -/
theorem claim9_typing_filter (u : User) (now : Int) (feed : List TypingStatus) :
    (∀ s : TypingStatus,
        s ∈ activeTypingUsers (some u) now feed ↔
          (s ∈ feed ∧ s.userId ≠ u.id ∧ s.isTyping = true ∧
            now - s.lastTypingTime < TYPING_TIMEOUT))
    ∧ (∀ s : TypingStatus, s.lastTypingTime = now - 4000 →
        s ∉ activeTypingUsers (some u) now feed) := by
  have hmem : ∀ s : TypingStatus,
      s ∈ activeTypingUsers (some u) now feed ↔
        (s ∈ feed ∧ s.userId ≠ u.id ∧ s.isTyping = true ∧
          now - s.lastTypingTime < TYPING_TIMEOUT) := by
    intro s
    simp [activeTypingUsers, List.mem_filter, bne_iff_ne, and_assoc]
  refine ⟨hmem, ?_⟩
  intro s hs hmem'
  have h := ((hmem s).mp hmem').2.2.2
  rw [hs] at h
  simp [TYPING_TIMEOUT] at h

/-- A stale typing record: still marked typing, but 4000 ms old at time
10000. -/
def staleTyping : TypingStatus :=
  { userId := "u2", userAlias := "bob", isTyping := true, lastTypingTime := 6000 }

theorem claim9_witness :
    (staleTyping ∈ [staleTyping] ∧ staleTyping.isTyping = true ∧
      staleTyping.lastTypingTime = 10000 - 4000) ∧
    staleTyping ∉ activeTypingUsers (some { id := "u1", userAlias := "alice" }) 10000
      [staleTyping] :=
  ⟨⟨by decide, by decide, by decide⟩,
    (claim9_typing_filter { id := "u1", userAlias := "alice" } 10000 [staleTyping]).2
      staleTyping (by decide)⟩

/-! ## Decimal codec for serialised timestamps and generated ids

`JSON.stringify` serialises a `Date` through `Date.prototype.toJSON` as a
string denoting the same epoch-millisecond instant, and the load path
re-hydrates it with `new Date(string)`; on valid dates that runtime codec is
an exact round trip on milliseconds.  The runtime codec is not repository
source, so it is modelled by a faithful injective textual codec on epoch
milliseconds, built on decimal digits. -/

/-- The character for a single decimal digit. -/
def digitChar (d : Nat) : Char := Char.ofNat (48 + d)

/-- The decimal digit denoted by a character. -/
def charDigit (c : Char) : Nat := c.toNat - 48

/-- Decimal representation of a positive natural number, most significant
digit first; the fuel argument (any bound on `n`) keeps the recursion
structural so the function evaluates. -/
def natToDigitCharsAux : Nat → Nat → List Char
  | 0, _ => []
  | fuel + 1, n =>
    if n = 0 then []
    else natToDigitCharsAux fuel (n / 10) ++ [digitChar (n % 10)]

/-- Decimal representation of a natural number, most significant digit
first. -/
def natToDigitChars (n : Nat) : List Char :=
  if n = 0 then ['0'] else natToDigitCharsAux n n

/-- Value of a most-significant-first decimal digit string. -/
def digitCharsToNat (cs : List Char) : Nat :=
  Nat.ofDigits 10 ((cs.map charDigit).reverse)

theorem charDigit_digitChar {d : Nat} (h : d < 10) : charDigit (digitChar d) = d := by
  interval_cases d <;> decide

theorem digitCharsToNat_concat (l : List Char) (c : Char) :
    digitCharsToNat (l ++ [c]) = charDigit c + 10 * digitCharsToNat l := by
  simp [digitCharsToNat, Nat.ofDigits_cons]

theorem natToDigitCharsAux_roundtrip :
    ∀ fuel n : Nat, n ≤ fuel → digitCharsToNat (natToDigitCharsAux fuel n) = n := by
  intro fuel
  induction fuel with
  | zero =>
    intro n hn
    interval_cases n
    decide
  | succ fuel ih =>
    intro n hn
    by_cases h0 : n = 0
    · subst h0
      simp [natToDigitCharsAux]
      decide
    · rw [natToDigitCharsAux, if_neg h0, digitCharsToNat_concat,
        charDigit_digitChar (Nat.mod_lt n (by norm_num)),
        ih (n / 10) (by
          have := Nat.div_lt_self (Nat.pos_of_ne_zero h0) (by norm_num : 1 < 10)
          omega)]
      omega

theorem digitChars_roundtrip (n : Nat) : digitCharsToNat (natToDigitChars n) = n := by
  by_cases h : n = 0
  · subst h; decide
  · unfold natToDigitChars
    rw [if_neg h]
    exact natToDigitCharsAux_roundtrip n n (Nat.le_refl n)

/-- Valid JavaScript `Date` range: at most 8.64e15 ms from the epoch.  The
queue only ever stores `new Date()` creation times, which are nonnegative. -/
def validTimestamp (t : Int) : Prop := 0 ≤ t ∧ t ≤ 8640000000000000

instance (t : Int) : Decidable (validTimestamp t) :=
  inferInstanceAs (Decidable (_ ∧ _))

/-- Serialisation of a `Date` (epoch ms) to the string stored in JSON. -/
def encodeTimestamp (t : Int) : String := String.mk (natToDigitChars t.toNat)

/-- Re-hydration `new Date(string)` back to epoch ms. -/
def decodeTimestamp (s : String) : Int := Int.ofNat (digitCharsToNat s.data)

theorem timestamp_roundtrip {t : Int} (h : validTimestamp t) :
    decodeTimestamp (encodeTimestamp t) = t := by
  unfold decodeTimestamp encodeTimestamp
  show Int.ofNat (digitCharsToNat (natToDigitChars t.toNat)) = t
  rw [digitChars_roundtrip]
  exact Int.toNat_of_nonneg h.1

/-! ## Durable persistence of the queue (`useOfflineQueue.ts`, load/save effects) -/

/-- A JSON value, the shape held in `localStorage`. -/
inductive Json where
  | null
  | str (s : String)
  | num (n : Int)
  | bool (b : Bool)
  | arr (items : List Json)
  | obj (fields : List (String × Json))
deriving Repr

/-- Serialisation `JSON.stringify` of one queued message: a plain object whose `timestamp`
field has been serialised to a string by `Date.prototype.toJSON`. -/
def encodeQueuedMessage (m : QueuedMessage) : Json :=
  Json.obj [("id", Json.str m.id), ("content", Json.str m.content),
            ("senderId", Json.str m.senderId), ("senderAlias", Json.str m.senderAlias),
            ("timestamp", Json.str (encodeTimestamp m.timestamp)),
            ("retryCount", Json.num m.retryCount)]

/-- Serialisation `JSON.stringify(queueState.queuedMessages)`: the array persisted under the
storage key. -/
def encodeQueue (q : List QueuedMessage) : Json := Json.arr (q.map encodeQueuedMessage)

/-- Field access on a parsed JSON object. -/
def jField (fields : List (String × Json)) (k : String) : Option Json :=
  fields.lookup k

/-- A string-valued JSON field. -/
def asStr : Json → Option String
  | Json.str s => some s
  | _ => none

/-- A number-valued JSON field. -/
def asNum : Json → Option Int
  | Json.num n => some n
  | _ => none

/-- The load path for one stored message:
`{...msg, timestamp: new Date(msg.timestamp)}` after `JSON.parse`. -/
def decodeQueuedMessage : Json → Option QueuedMessage
  | Json.obj fields => do
    let i ← (jField fields "id").bind asStr
    let c ← (jField fields "content").bind asStr
    let sid ← (jField fields "senderId").bind asStr
    let sal ← (jField fields "senderAlias").bind asStr
    let ts ← (jField fields "timestamp").bind asStr
    let rc ← (jField fields "retryCount").bind asNum
    pure { id := i, content := c, senderId := sid, senderAlias := sal,
           timestamp := decodeTimestamp ts, retryCount := rc.toNat }
  | _ => none

/-- The load path for the stored array: `JSON.parse(stored).map(...)`. -/
def decodeQueue : Json → Option (List QueuedMessage)
  | Json.arr items => decodeQueueList items
  | _ => none
where
  decodeQueueList : List Json → Option (List QueuedMessage)
    | [] => some []
    | j :: rest => do
      let m ← decodeQueuedMessage j
      let ms ← decodeQueueList rest
      pure (m :: ms)

theorem decodeQueuedMessage_roundtrip {m : QueuedMessage}
    (h : validTimestamp m.timestamp) :
    decodeQueuedMessage (encodeQueuedMessage m) = some m := by
  simp only [encodeQueuedMessage, decodeQueuedMessage, jField, List.lookup, asStr, asNum]
  simp [timestamp_roundtrip h]

/-- Claim C8: serialising the queue to durable storage and reloading it
(JSON-stringify, store, parse, re-hydrate the `timestamp` field) reproduces
an equal ordered list — same messages, same order, `retryCount` preserved,
every timestamp reconstructed as the same instant — for every queue whose
timestamps are representable `Date` instants. -/
theorem claim8_persistence_roundtrip (q : List QueuedMessage)
    (h : ∀ m ∈ q, validTimestamp m.timestamp) :
    decodeQueue (encodeQueue q) = some q := by
  simp only [encodeQueue, decodeQueue]
  induction q with
  | nil => rfl
  | cons m rest ih =>
    have hm : validTimestamp m.timestamp := h m (List.mem_cons_self m rest)
    have hrest := ih (fun x hx => h x (List.mem_cons_of_mem m hx))
    simp only [List.map_cons, decodeQueue.decodeQueueList,
      decodeQueuedMessage_roundtrip hm, hrest, Option.bind_some]
    rfl

theorem claim8_witness :
    (∀ m ∈ [sampleMsg "a" "hi", sampleMsg "b" "yo"], validTimestamp m.timestamp) ∧
    decodeQueue (encodeQueue [sampleMsg "a" "hi", sampleMsg "b" "yo"])
      = some [sampleMsg "a" "hi", sampleMsg "b" "yo"] :=
  ⟨by decide, claim8_persistence_roundtrip [sampleMsg "a" "hi", sampleMsg "b" "yo"]
    (by decide)⟩

/-! ## Remote store and `dbHelpers.messages.send` (`src/lib/instant.ts`) -/

/-- Type of the status field of `Message` in `src/types/index.ts`. -/
inductive MessageStatus where
  | sending
  | delivered
  | failed
deriving DecidableEq, Repr

/-- A message record in the remote store. -/
structure RemoteMessage where
  id : String
  content : String
  senderId : String
  senderAlias : String
  timestamp : Int
  status : MessageStatus
deriving DecidableEq, Repr

/-- The remote store together with the global id supply: `id()` from
`@instantdb/react` returns a fresh identifier on every call, modelled by the
`nextId` counter rendered through the injective decimal codec. -/
structure RemoteStore where
  records : List RemoteMessage
  nextId : Nat
deriving DecidableEq, Repr

/-- Function `dbHelpers.generateId`, i.e. `id()`: a fresh, never-repeating identifier. -/
def generateId (n : Nat) : String := String.mk (natToDigitChars n)

/-- Transaction `tx.messages[messageId].update(message)`: upsert by id. -/
def upsertMessage (records : List RemoteMessage) (msg : RemoteMessage) :
    List RemoteMessage :=
  if records.any (fun r => r.id == msg.id) then
    records.map (fun r => if r.id == msg.id then msg else r)
  else records ++ [msg]

/-- Transaction updating only the status field of the record with the given id. -/
def updateStatus (records : List RemoteMessage) (messageId : String)
    (st : MessageStatus) : List RemoteMessage :=
  records.map (fun r => if r.id == messageId then { r with status := st } else r)

/-- Helper `dbHelpers.messages.send(content, senderId, senderAlias)` from
`src/lib/instant.ts` (lines 63-107), successful path: a *fresh* `messageId =
id()` is generated inside the helper — the caller cannot supply one — the
record is written optimistically under that id with status `sending`, and the
deferred confirmation then marks the same id `delivered`.  (The rejection
path marks the fresh id `failed` and rethrows; it never yields a delivered
record and plays no role here.)  Returns the updated store and the written
message. -/
def messagesSend (store : RemoteStore) (content senderId senderAlias : String)
    (now : Int) : RemoteStore × RemoteMessage :=
  let messageId := generateId store.nextId
  let message : RemoteMessage :=
    { id := messageId, content := jsTrim content, senderId := senderId,
      senderAlias := senderAlias, timestamp := now, status := MessageStatus.sending }
  ({ records := upsertMessage store.records message, nextId := store.nextId + 1 },
   message)

/-- The deferred status-to-delivered confirmation transaction. -/
def confirmDelivered (store : RemoteStore) (messageId : String) : RemoteStore :=
  { store with records := updateStatus store.records messageId MessageStatus.delivered }

/-- The drain callback of `useMessages.ts` (lines 144-150): the `sendFn`
passed to `processQueue` calls `dbHelpers.messages.send(queuedMessage.content,
queuedMessage.senderId, queuedMessage.senderAlias)` — the queued message's
`id` is not among the arguments.  Followed here by the delivered
confirmation. -/
def deliverQueued (store : RemoteStore) (qm : QueuedMessage) (now : Int) :
    RemoteStore × RemoteMessage :=
  let r := messagesSend store qm.content qm.senderId qm.senderAlias now
  (confirmDelivered r.1 r.2.id, r.2)

/-- A queued message whose client-generated id was drawn from the same id
supply at counter 0 (as `sendMessage` in `useMessages.ts` does before
enqueueing). -/
def c1Queued : QueuedMessage :=
  { id := generateId 0, content := "hi", senderId := "u1", senderAlias := "alice",
    timestamp := 0, retryCount := 0 }

/-- The remote store after the id supply has moved past the queued message's
id. -/
def c1Store : RemoteStore := { records := [], nextId := 1 }

/-- Claim C1 is violated by the code: `dbHelpers.messages.send` generates a
fresh id internally and neither `sendMessage` nor the drain callback passes
the queued message's client-generated id to it.  Delivering the queued
message `c1Queued` twice (as two drains of a message that stayed queued
would) writes two *distinct* delivered records, neither of which carries the
queued id — the idempotent-retry property the spec requires does not hold. -/
theorem claim1_delivered_id_not_queued_id :
    (deliverQueued c1Store c1Queued 100).2.id ≠ c1Queued.id ∧
    ((deliverQueued (deliverQueued c1Store c1Queued 100).1 c1Queued 200).2.id
      ≠ c1Queued.id) ∧
    ((deliverQueued c1Store c1Queued 100).2.id ≠
      (deliverQueued (deliverQueued c1Store c1Queued 100).1 c1Queued 200).2.id) ∧
    (deliverQueued (deliverQueued c1Store c1Queued 100).1 c1Queued 200).1.records.length
      = 2 ∧
    (∀ r ∈ (deliverQueued (deliverQueued c1Store c1Queued 100).1 c1Queued 200).1.records,
      r.status = MessageStatus.delivered) := by
  refine ⟨by decide, by decide, by decide, by decide, by decide⟩

end IM
